import Mathlib

/-!
# Verification of the bridge database-sync engine

Shallow embedding of the change-detection and replication engine of the
`bridge` repository (`src/core/SyncJob.js`, `src/syncer.js`, and the
adapter layer), together with proofs of the specified properties.

Modelling conventions:
* A JavaScript row object is a `Row`: an association list from column
  names to scalar `Value`s.  JavaScript truthiness (`!keyValue`) is
  `Value.truthy`; a missing property reads as `none` and is falsy.
* Timestamps (`Date` instants) are modelled as `Int` milliseconds since
  the epoch; `new Date(0)` is the instant `0`.  A `DATETIME` column value
  delivered by a driver is a `Value.vDate` (a JS `Date` object, which is
  always truthy) or `Value.vNull`.
* A fallible adapter call (`await` that may throw) is a function into
  `Except String α`; the string is the thrown error's message.
* Each model function additionally returns the chronological list of
  adapter invocations it performed (`Event`), so that claims about which
  adapter calls happen, with which arguments and in which order, are
  statements about that trace.
* `SyncJob.execute` wraps its whole body in `try/catch` and returns a
  result object in every case; accordingly its embedding is a total
  function into `SyncResult × List Event` — an adapter error surfaces as
  a `success := false` result, never as an exception to the caller.
-/

/-- A JavaScript scalar value as it appears in a database row object. -/
inductive Value where
  | vNull : Value
  | vInt : Int → Value
  | vStr : String → Value
  | vBool : Bool → Value
  | vDate : Int → Value
  deriving DecidableEq, Repr

/-- JavaScript truthiness of a `Value`.  `null`, `0`, `""` and `false`
are falsy; a `Date` object is an object and hence always truthy. -/
def Value.truthy : Value → Bool
  | .vNull => false
  | .vInt n => n != 0
  | .vStr s => s != ""
  | .vBool b => b
  | .vDate _ => true

/-- A row: an object mapping column names to scalar values. -/
abbrev Row := List (String × Value)

/-- Property read `r[col]` on a row object; `none` models `undefined`. -/
def recGet (r : Row) (col : String) : Option Value :=
  (r.find? (fun p => p.1 == col)).map (fun p => p.2)

/-- One adapter invocation, recorded in chronological order. -/
inductive Event where
  | evGetSyncStatus : String → Event
  | evGetUpdatedRecords : String → String → Int → Event
  | evExists : String → String → Value → Event
  | evBatchInsert : String → List Row → Event
  | evBatchUpdate : String → List Row → String → Event
  | evUpdateSyncStatus : String → Int → Event
  deriving DecidableEq, Repr

/-- Source-side adapter capability used by a sync job
(`getUpdatedRecords(tableName, updateColumn, lastUpdate)`). -/
structure SourceAdapter where
  getUpdatedRecords : String → String → Int → Except String (List Row)

/-- Target-side adapter capabilities used by a sync job.  `existsQ` is
the JS method `exists` (renamed: `exists` is reserved in Lean). -/
structure TargetAdapter where
  getSyncStatus : String → Except String Int
  existsQ : String → String → Value → Except String Bool
  batchInsert : String → List Row → Except String Unit
  batchUpdate : String → List Row → String → Except String Unit
  updateSyncStatus : String → Int → Except String Unit

/-- The configuration of one `SyncJob` (its constructor fields). -/
structure SyncJob where
  sourceAdapter : SourceAdapter
  targetAdapter : TargetAdapter
  tableName : String
  targetTableName : String
  updateColumn : String
  keyColumn : String
  batchSize : Nat

/-- The value object returned by `SyncJob.execute`.  `recordsInserted`
and `recordsUpdated` are `none` on the paths that omit those fields. -/
structure SyncResult where
  success : Bool
  recordsProcessed : Nat
  recordsInserted : Option Nat
  recordsUpdated : Option Nat
  error : Option String
  message : String
  deriving DecidableEq, Repr

/-- Aggregate counters returned by `processBatch` / `processBatches`. -/
structure BatchResult where
  processed : Nat
  inserted : Nat
  updated : Nat
  deriving DecidableEq, Repr

namespace SyncJob

/-- The `catch` branch of `SyncJob.execute`:
`{success: false, error: error.message, recordsProcessed: 0, message: '同步失敗'}`. -/
def mkFailResult (e : String) : SyncResult :=
  { success := false, recordsProcessed := 0, recordsInserted := none,
    recordsUpdated := none, error := some e, message := "同步失敗" }

/-- The partition loop of `SyncJob.processBatch` (lines 111-129): for
each record, read the key column; a falsy key value is skipped with no
adapter call; otherwise the target's `exists` is consulted, routing the
record to `toUpdate` (exists) or `toInsert` (does not exist); a record
whose existence check throws is skipped (`continue`).
Returns `(toInsert, toUpdate, trace)`. -/
def partitionRecords (ta : TargetAdapter) (targetTableName keyColumn : String) :
    List Row → List Row × List Row × List Event
  | [] => ([], [], [])
  | r :: rs =>
    let rest := partitionRecords ta targetTableName keyColumn rs
    match recGet r keyColumn with
    | none => rest
    | some v =>
      if v.truthy then
        match ta.existsQ targetTableName keyColumn v with
        | .ok true =>
            (rest.1, r :: rest.2.1, .evExists targetTableName keyColumn v :: rest.2.2)
        | .ok false =>
            (r :: rest.1, rest.2.1, .evExists targetTableName keyColumn v :: rest.2.2)
        | .error _ =>
            (rest.1, rest.2.1, .evExists targetTableName keyColumn v :: rest.2.2)
      else rest

/-- `SyncJob.insertOneByOne` (lines 167-178): apply each record with an
individual `batchInsert([record])` call; a throwing record is logged and
skipped; returns the number of records applied successfully. -/
def insertOneByOne (ta : TargetAdapter) (targetTableName : String) :
    List Row → Nat × List Event
  | [] => (0, [])
  | r :: rs =>
    let rest := insertOneByOne ta targetTableName rs
    match ta.batchInsert targetTableName [r] with
    | .ok _ => (rest.1 + 1, .evBatchInsert targetTableName [r] :: rest.2)
    | .error _ => (rest.1, .evBatchInsert targetTableName [r] :: rest.2)

/-- `SyncJob.updateOneByOne` (lines 184-195): the row-by-row fallback for
updates, counting individually successful records. -/
def updateOneByOne (ta : TargetAdapter) (targetTableName keyColumn : String) :
    List Row → Nat × List Event
  | [] => (0, [])
  | r :: rs =>
    let rest := updateOneByOne ta targetTableName keyColumn rs
    match ta.batchUpdate targetTableName [r] keyColumn with
    | .ok _ => (rest.1 + 1, .evBatchUpdate targetTableName [r] keyColumn :: rest.2)
    | .error _ => (rest.1, .evBatchUpdate targetTableName [r] keyColumn :: rest.2)

/-- `SyncJob.processBatch` (lines 106-161): partition the chunk by
existence check, then attempt one `batchInsert` over all of `toInsert`
(falling back to `insertOneByOne` if it throws) and one `batchUpdate`
over all of `toUpdate` (falling back to `updateOneByOne`); return
`{processed := inserted + updated, inserted, updated}`. -/
def processBatch (ta : TargetAdapter) (targetTableName keyColumn : String)
    (batch : List Row) : BatchResult × List Event :=
  let part := partitionRecords ta targetTableName keyColumn batch
  let toInsert := part.1
  let toUpdate := part.2.1
  let ins :=
    if toInsert.length > 0 then
      match ta.batchInsert targetTableName toInsert with
      | .ok _ => (toInsert.length, [Event.evBatchInsert targetTableName toInsert])
      | .error _ =>
        let fb := insertOneByOne ta targetTableName toInsert
        (fb.1, Event.evBatchInsert targetTableName toInsert :: fb.2)
    else (0, [])
  let upd :=
    if toUpdate.length > 0 then
      match ta.batchUpdate targetTableName toUpdate keyColumn with
      | .ok _ => (toUpdate.length, [Event.evBatchUpdate targetTableName toUpdate keyColumn])
      | .error _ =>
        let fb := updateOneByOne ta targetTableName keyColumn toUpdate
        (fb.1, Event.evBatchUpdate targetTableName toUpdate keyColumn :: fb.2)
    else (0, [])
  ({ processed := ins.1 + upd.1, inserted := ins.1, updated := upd.1 },
    part.2.2 ++ ins.2 ++ upd.2)

/-- The chunking of `processBatches`' indexed loop
(`for (i = 0; i < records.length; i += batchSize) slice(i, i+batchSize)`),
written with the list length as fuel: for `batchSize ≥ 1` the loop makes
at most `records.length` iterations (for `batchSize = 0` the JS loop
would not terminate; the model's fuel then runs out instead). -/
def chunkGo (bs : Nat) : Nat → List Row → List (List Row)
  | 0, _ => []
  | _, [] => []
  | fuel + 1, r :: rs => (r :: rs).take bs :: chunkGo bs fuel ((r :: rs).drop bs)

/-- `records` sliced into consecutive chunks of at most `batchSize`. -/
def chunkList (bs : Nat) (records : List Row) : List (List Row) :=
  chunkGo bs records.length records

/-- Folding `processBatch` over a list of chunks, accumulating counters
(`totalProcessed`, `inserted`, `updated`) and the combined trace. -/
def processBatchesGo (ta : TargetAdapter) (targetTableName keyColumn : String) :
    List (List Row) → BatchResult × List Event
  | [] => (⟨0, 0, 0⟩, [])
  | c :: cs =>
    let br := processBatch ta targetTableName keyColumn c
    let rest := processBatchesGo ta targetTableName keyColumn cs
    (⟨br.1.processed + rest.1.processed, br.1.inserted + rest.1.inserted,
      br.1.updated + rest.1.updated⟩, br.2 ++ rest.2)

/-- `SyncJob.processBatches` (lines 81-100): slice the record list into
chunks of at most `batchSize` and process each chunk in order, summing
the per-chunk counters. -/
def processBatches (ta : TargetAdapter) (targetTableName keyColumn : String)
    (bs : Nat) (records : List Row) : BatchResult × List Event :=
  processBatchesGo ta targetTableName keyColumn (chunkList bs records)

/-- `SyncJob.execute` (lines 23-75): read the watermark for the pair key
`${tableName}_to_${targetTableName}`, extract the records updated since
it, return the no-op result on zero rows, otherwise reconcile all rows
and only then write the watermark (`now` is the wall-clock instant taken
at that point).  The surrounding `try/catch` makes every failure return
`mkFailResult`; the function is total. -/
def execute (j : SyncJob) (now : Int) : SyncResult × List Event :=
  let syncStatusKey := j.tableName ++ "_to_" ++ j.targetTableName
  match j.targetAdapter.getSyncStatus syncStatusKey with
  | .error e => (mkFailResult e, [.evGetSyncStatus syncStatusKey])
  | .ok lastSyncTime =>
    match j.sourceAdapter.getUpdatedRecords j.tableName j.updateColumn lastSyncTime with
    | .error e =>
        (mkFailResult e,
          [.evGetSyncStatus syncStatusKey,
           .evGetUpdatedRecords j.tableName j.updateColumn lastSyncTime])
    | .ok updatedRecords =>
      if updatedRecords.length = 0 then
        ({ success := true, recordsProcessed := 0, recordsInserted := none,
           recordsUpdated := none, error := none, message := "沒有新記錄" },
          [.evGetSyncStatus syncStatusKey,
           .evGetUpdatedRecords j.tableName j.updateColumn lastSyncTime])
      else
        let results := processBatches j.targetAdapter j.targetTableName j.keyColumn
          j.batchSize updatedRecords
        match j.targetAdapter.updateSyncStatus syncStatusKey now with
        | .error e =>
            (mkFailResult e,
              [.evGetSyncStatus syncStatusKey,
               .evGetUpdatedRecords j.tableName j.updateColumn lastSyncTime]
                ++ results.2 ++ [.evUpdateSyncStatus syncStatusKey now])
        | .ok _ =>
            ({ success := true, recordsProcessed := results.1.processed,
               recordsInserted := some results.1.inserted,
               recordsUpdated := some results.1.updated,
               error := none, message := "同步成功" },
              [.evGetSyncStatus syncStatusKey,
               .evGetUpdatedRecords j.tableName j.updateColumn lastSyncTime]
                ++ results.2 ++ [.evUpdateSyncStatus syncStatusKey now])

end SyncJob

namespace DatabaseSyncer

/-- Per-tick aggregate statistics of the scheduler
(`{totalTables, successTables, failedTables, totalRecords}`). -/
structure TickResults where
  totalTables : Nat
  successTables : Nat
  failedTables : Nat
  totalRecords : Nat
  deriving DecidableEq, Repr

/-- `DatabaseSyncer.mergeResults` (syncer.js lines 373-378). -/
def mergeResults (target source : TickResults) : TickResults :=
  { totalTables := target.totalTables + source.totalTables,
    successTables := target.successTables + source.successTables,
    failedTables := target.failedTables + source.failedTables,
    totalRecords := target.totalRecords + source.totalRecords }

/-- `DatabaseSyncer.syncTablePair` (syncer.js lines 259-311): start from
`{totalTables: 1}`; the whole job construction + execution is inside
`try/catch`, so a thrown error is recorded as one failed table.
`jobOutcome` is the outcome of building and executing the pair's
`SyncJob` (`.error` models a throw escaping `execute`'s own boundary,
e.g. from the job's construction). -/
def syncTablePair (isRunning : Bool) (jobOutcome : Except String SyncResult) :
    TickResults :=
  if !isRunning then ⟨1, 0, 0, 0⟩
  else
    match jobOutcome with
    | .error _ => ⟨1, 0, 1, 0⟩
    | .ok r =>
      if r.success then ⟨1, 1, 0, r.recordsProcessed⟩
      else ⟨1, 0, 1, 0⟩

/-- `DatabaseSyncer.runSync` (syncer.js lines 201-254): for each of the
two configured directed pairs, run `syncTablePair` and merge its results
into the tick aggregate.  `pair1 := true` means the client→server pair
is configured (adapters present and both table names set), `pair2`
likewise for server→client. -/
def runSync (isRunning pair1 pair2 : Bool)
    (outcome1 outcome2 : Except String SyncResult) : TickResults :=
  if !isRunning then ⟨0, 0, 0, 0⟩
  else
    let acc0 : TickResults := ⟨0, 0, 0, 0⟩
    let acc1 := if pair1 then mergeResults acc0 (syncTablePair isRunning outcome1) else acc0
    let acc2 := if pair2 then mergeResults acc1 (syncTablePair isRunning outcome2) else acc1
    acc2

end DatabaseSyncer

/-- The instant a driver reports in the `last_sync_time` column, as used
by `result[0]?.last_sync_time || new Date(0)`: a truthy value (a `Date`
object) yields its instant, any falsy value yields the epoch. -/
def valueToInstant : Value → Int
  | .vDate t => t
  | .vInt t => t
  | _ => 0

namespace MariaDBAdapter

/-- `MariaDBAdapter.getSyncStatus` (SyncJob.js bundle, lines 579-589):
`SELECT last_sync_time FROM sync_status WHERE table_name = ?`; on a
thrown query error the catch swallows it and returns `new Date(0)`; an
absent row or falsy column value also yields the epoch.  `queryResult`
is the outcome of the underlying `this.query` call. -/
def getSyncStatus (queryResult : Except String (List Row)) : Int :=
  match queryResult with
  | .error _ => 0
  | .ok rows =>
    match rows.head? with
    | none => 0
    | some r =>
      match recGet r "last_sync_time" with
      | none => 0
      | some v => if v.truthy then valueToInstant v else 0

end MariaDBAdapter

namespace MSSQLAdapter

/-- `MSSQLAdapter.getSyncStatus` (unnamed/part_005 lines 210-223): same
shape as the MariaDB one over `result.recordset[0]?.last_sync_time`,
returning the epoch when the query throws or yields no truthy value. -/
def getSyncStatus (queryResult : Except String (List Row)) : Int :=
  match queryResult with
  | .error _ => 0
  | .ok recordset =>
    match recordset.head? with
    | none => 0
    | some r =>
      match recGet r "last_sync_time" with
      | none => 0
      | some v => if v.truthy then valueToInstant v else 0

end MSSQLAdapter

/-! ## Pure adapters over an explicit store

For the claims that talk about stored state across runs (C2, C10) the
adapters are instantiated with pure functions over an explicit watermark
store and a fixed source table, mirroring the SQL the concrete adapters
issue (`WHERE updateColumn > ?` for extraction, an upsert keyed on the
pair key for the watermark). -/

/-- The rows of a fixed source table whose update column holds a `Date`
strictly greater than `since` — the extraction query
`SELECT * FROM t WHERE updateColumn > ? ORDER BY updateColumn` over a
source list already stored in ascending `updateColumn` order (rows whose
update column is NULL or absent are not matched by the comparison). -/
def rowsSince (src : List Row) (ucol : String) (since : Int) : List Row :=
  src.filter fun r =>
    match recGet r ucol with
    | some (.vDate t) => decide (since < t)
    | _ => false

/-- A source adapter reading from a fixed in-memory source table. -/
def mkSourceAdapter (src : List Row) : SourceAdapter :=
  { getUpdatedRecords := fun _ ucol since => .ok (rowsSince src ucol since) }

/-- The persisted watermark store: pair key ↦ last sync instant. -/
abbrev WmStore := List (String × Int)

/-- Watermark read: the stored instant, or the epoch when absent. -/
def wmLookup (wm : WmStore) (key : String) : Int :=
  match wm.find? (fun p => p.1 == key) with
  | some p => p.2
  | none => 0

/-- Watermark upsert for one pair key. -/
def wmSet (wm : WmStore) (key : String) (t : Int) : WmStore :=
  (key, t) :: wm.filter (fun p => p.1 != key)

/-- A target adapter whose watermark calls are backed by the store `wm`
and always succeed; the reconciliation capabilities are parameters. -/
def mkTargetAdapter (wm : WmStore)
    (exQ : String → String → Value → Except String Bool)
    (bi : String → List Row → Except String Unit)
    (bu : String → List Row → String → Except String Unit) : TargetAdapter :=
  { getSyncStatus := fun key => .ok (wmLookup wm key),
    existsQ := exQ, batchInsert := bi, batchUpdate := bu,
    updateSyncStatus := fun _ _ => .ok () }

/-- Replay the successful watermark writes of a trace onto the store
(all other events leave the watermark table untouched). -/
def applyEvents (wm : WmStore) : List Event → WmStore
  | [] => wm
  | .evUpdateSyncStatus k t :: es => applyEvents (wmSet wm k t) es
  | _ :: es => applyEvents wm es

/-! ## Characterizations used by the theorems -/

/-- Whether a row's key-column value passes the `if (!keyValue)` guard:
the property is present and its value is truthy. -/
def keyTruthy (kcol : String) (r : Row) : Bool :=
  match recGet r kcol with
  | some v => v.truthy
  | none => false

/-- The key-column value a row presents to the existence check. -/
def keyVal (kcol : String) (r : Row) : Value := (recGet r kcol).getD Value.vNull

/-- Did an `Except`-returning call succeed? -/
def exceptOk {α : Type} : Except String α → Bool
  | .ok _ => true
  | .error _ => false

/-- A row the partition loop routes to `toInsert`: truthy key and a
successful existence check answering `false`. -/
def insEligible (ta : TargetAdapter) (ttn kcol : String) (r : Row) : Bool :=
  keyTruthy kcol r &&
    (match ta.existsQ ttn kcol (keyVal kcol r) with
     | .ok false => true
     | _ => false)

/-- A row the partition loop routes to `toUpdate`: truthy key and a
successful existence check answering `true`. -/
def updEligible (ta : TargetAdapter) (ttn kcol : String) (r : Row) : Bool :=
  keyTruthy kcol r &&
    (match ta.existsQ ttn kcol (keyVal kcol r) with
     | .ok true => true
     | _ => false)

/-- Recognizer for `batchInsert` invocations in a trace. -/
def isBatchInsertEv : Event → Bool
  | .evBatchInsert _ _ => true
  | _ => false

/-- The partition loop computes exactly the two eligibility filters, and
performs exactly one existence check per truthy-key row, in order. -/
theorem partitionRecords_eq (ta : TargetAdapter) (ttn kcol : String) (batch : List Row) :
    SyncJob.partitionRecords ta ttn kcol batch =
      (batch.filter (insEligible ta ttn kcol),
       batch.filter (updEligible ta ttn kcol),
       (batch.filter (keyTruthy kcol)).map
         (fun r => Event.evExists ttn kcol (keyVal kcol r))) := by
  induction batch with
  | nil => rfl
  | cons r rs ih =>
    simp only [SyncJob.partitionRecords, ih, List.filter_cons]
    rcases h : recGet r kcol with _ | v
    · simp [insEligible, updEligible, keyTruthy, h]
    · rcases ht : v.truthy with _ | _
      · simp [insEligible, updEligible, keyTruthy, keyVal, h, ht]
      · rcases he : ta.existsQ ttn kcol v with e | b
        · simp [insEligible, updEligible, keyTruthy, keyVal, h, ht, he]
        · rcases b with _ | _
          · simp [insEligible, updEligible, keyTruthy, keyVal, h, ht, he]
          · simp [insEligible, updEligible, keyTruthy, keyVal, h, ht, he]

/-- The insert fallback counts exactly the individually successful rows
and performs one singleton `batchInsert` call per row, in order. -/
theorem insertOneByOne_eq (ta : TargetAdapter) (ttn : String) (records : List Row) :
    SyncJob.insertOneByOne ta ttn records =
      ((records.filter (fun r => exceptOk (ta.batchInsert ttn [r]))).length,
        records.map (fun r => Event.evBatchInsert ttn [r])) := by
  induction records with
  | nil => rfl
  | cons r rs ih =>
    simp only [SyncJob.insertOneByOne, ih, List.filter_cons, List.map_cons]
    rcases h : ta.batchInsert ttn [r] with e | u
    · simp [exceptOk, h]
    · simp [exceptOk, h]

/-- The update fallback counts exactly the individually successful rows
and performs one singleton `batchUpdate` call per row, in order. -/
theorem updateOneByOne_eq (ta : TargetAdapter) (ttn kcol : String) (records : List Row) :
    SyncJob.updateOneByOne ta ttn kcol records =
      ((records.filter (fun r => exceptOk (ta.batchUpdate ttn [r] kcol))).length,
        records.map (fun r => Event.evBatchUpdate ttn [r] kcol)) := by
  induction records with
  | nil => rfl
  | cons r rs ih =>
    simp only [SyncJob.updateOneByOne, ih, List.filter_cons, List.map_cons]
    rcases h : ta.batchUpdate ttn [r] kcol with e | u
    · simp [exceptOk, h]
    · simp [exceptOk, h]

/-- Chunking the empty list yields no chunks, whatever the fuel. -/
theorem chunkGo_nil (bs fuel : Nat) : SyncJob.chunkGo bs fuel ([] : List Row) = [] := by
  cases fuel <;> rfl

/-- Every chunk produced by the slicing loop has at most `bs` rows. -/
theorem chunkGo_mem_length_le (bs : Nat) :
    ∀ fuel (l : List Row) c, c ∈ SyncJob.chunkGo bs fuel l → c.length ≤ bs := by
  intro fuel
  induction fuel with
  | zero => intro l c hc; simp [SyncJob.chunkGo] at hc
  | succ n ih =>
    intro l c hc
    cases l with
    | nil => simp [SyncJob.chunkGo] at hc
    | cons r rs =>
      simp only [SyncJob.chunkGo, List.mem_cons] at hc
      rcases hc with hc | hc
      · subst hc
        simp [List.length_take]
      · exact ih _ _ hc

/-- The chunks jointly contain at most the original rows. -/
theorem chunkGo_sum_length_le (bs : Nat) :
    ∀ fuel (l : List Row),
      ((SyncJob.chunkGo bs fuel l).map List.length).sum ≤ l.length := by
  intro fuel
  induction fuel with
  | zero => intro l; simp [SyncJob.chunkGo]
  | succ n ih =>
    intro l
    cases l with
    | nil => simp [SyncJob.chunkGo]
    | cons r rs =>
      simp only [SyncJob.chunkGo, List.map_cons, List.sum_cons]
      have h1 : ((r :: rs).take bs).length = min bs (r :: rs).length := by
        simp [List.length_take]
      have h2 := ih ((r :: rs).drop bs)
      have h3 : ((r :: rs).drop bs).length = (r :: rs).length - bs := by
        simp [List.length_drop]
      omega

/-- When the whole record list fits in one chunk, the slicing loop
produces exactly that single chunk. -/
theorem chunkList_singleton (bs : Nat) (l : List Row) (h1 : l ≠ []) (h2 : l.length ≤ bs) :
    SyncJob.chunkList bs l = [l] := by
  cases l with
  | nil => exact absurd rfl h1
  | cons r rs =>
    simp only [SyncJob.chunkList, List.length_cons, SyncJob.chunkGo]
    rw [List.take_of_length_le (by simpa using h2), List.drop_eq_nil_of_le (by simpa using h2)]
    simp [chunkGo_nil]

/-- A row routed to `toInsert` is not routed to `toUpdate`: the two
eligibility predicates answer through the same (functional) existence
check, so they cannot both hold. -/
theorem insEligible_not_updEligible (ta : TargetAdapter) (ttn kcol : String) (r : Row)
    (h : insEligible ta ttn kcol r = true) : updEligible ta ttn kcol r = false := by
  unfold insEligible at h
  unfold updEligible
  rcases he : ta.existsQ ttn kcol (keyVal kcol r) with e | b
  · simp [he] at h
  · cases b
    · simp [he]
    · simp [he] at h

/-- Two filters by predicates that never both hold keep at most the
original number of elements between them. -/
theorem length_filter_two_le {α : Type} (l : List α) (p q : α → Bool)
    (h : ∀ x, p x = true → q x = false) :
    (l.filter p).length + (l.filter q).length ≤ l.length := by
  induction l with
  | nil => simp
  | cons x xs ih =>
    rcases hp : p x with _ | _
    · rcases hq : q x with _ | _ <;> simp [List.filter_cons, hp, hq] <;> omega
    · have hq := h x hp
      simp [List.filter_cons, hp, hq]
      omega

/-- Filtering by a conjunction keeps no more elements than filtering by
one conjunct. -/
theorem length_filter_and_le {α : Type} (l : List α) (p q : α → Bool) :
    (l.filter fun a => p a && q a).length ≤ (l.filter q).length := by
  induction l with
  | nil => simp
  | cons x xs ih =>
    rcases hq : q x with _ | _ <;> rcases hp : p x with _ | _ <;>
      simp [List.filter_cons, hp, hq] <;> omega

/-- Per-chunk counters: `processed = inserted + updated`, and each count
is bounded by its partition's size (equality when the batch call
succeeds, a filter length when it falls back). -/
theorem processBatch_counts (ta : TargetAdapter) (ttn kcol : String) (batch : List Row) :
    (SyncJob.processBatch ta ttn kcol batch).1.processed =
        (SyncJob.processBatch ta ttn kcol batch).1.inserted +
          (SyncJob.processBatch ta ttn kcol batch).1.updated ∧
      (SyncJob.processBatch ta ttn kcol batch).1.inserted ≤
        (batch.filter (insEligible ta ttn kcol)).length ∧
      (SyncJob.processBatch ta ttn kcol batch).1.updated ≤
        (batch.filter (updEligible ta ttn kcol)).length := by
  simp only [SyncJob.processBatch, partitionRecords_eq, insertOneByOne_eq, updateOneByOne_eq]
  by_cases hI : (batch.filter (insEligible ta ttn kcol)).length > 0 <;>
    by_cases hU : (batch.filter (updEligible ta ttn kcol)).length > 0 <;>
      rcases hbi : ta.batchInsert ttn (batch.filter (insEligible ta ttn kcol)) with eI | uI <;>
        rcases hbu : ta.batchUpdate ttn (batch.filter (updEligible ta ttn kcol)) kcol with eU | uU <;>
          simp [hI, hU, hbi, hbu, length_filter_and_le]

/-- A chunk never reports more processed rows than it has rows. -/
theorem processBatch_processed_le (ta : TargetAdapter) (ttn kcol : String) (batch : List Row) :
    (SyncJob.processBatch ta ttn kcol batch).1.processed ≤ batch.length := by
  obtain ⟨h1, h2, h3⟩ := processBatch_counts ta ttn kcol batch
  have hd := length_filter_two_le batch (insEligible ta ttn kcol) (updEligible ta ttn kcol)
    (insEligible_not_updEligible ta ttn kcol)
  omega

/-- Every event of a chunk's trace is one of: an existence check for a
truthy-key row of the chunk, the whole-partition `batchInsert` /
`batchUpdate` call, or a singleton fallback call for a partition row. -/
theorem processBatch_trace_cases (ta : TargetAdapter) (ttn kcol : String) (batch : List Row) :
    ∀ ev ∈ (SyncJob.processBatch ta ttn kcol batch).2,
      (∃ r ∈ batch.filter (keyTruthy kcol), Event.evExists ttn kcol (keyVal kcol r) = ev) ∨
      ev = Event.evBatchInsert ttn (batch.filter (insEligible ta ttn kcol)) ∨
      (∃ x ∈ batch.filter (insEligible ta ttn kcol), Event.evBatchInsert ttn [x] = ev) ∨
      ev = Event.evBatchUpdate ttn (batch.filter (updEligible ta ttn kcol)) kcol ∨
      (∃ x ∈ batch.filter (updEligible ta ttn kcol), Event.evBatchUpdate ttn [x] kcol = ev) := by
  intro ev hev
  simp only [SyncJob.processBatch, partitionRecords_eq, insertOneByOne_eq,
    updateOneByOne_eq] at hev
  by_cases hI : (batch.filter (insEligible ta ttn kcol)).length > 0 <;>
    by_cases hU : (batch.filter (updEligible ta ttn kcol)).length > 0 <;>
      rcases hbi : ta.batchInsert ttn (batch.filter (insEligible ta ttn kcol)) with eI | uI <;>
        rcases hbu : ta.batchUpdate ttn (batch.filter (updEligible ta ttn kcol)) kcol with eU | uU <;>
          simp only [hI, hU, hbi, hbu, if_true, if_false, List.mem_append, List.mem_cons,
            List.mem_map, List.mem_singleton, List.not_mem_nil, or_false, false_or,
            gt_iff_lt, Nat.lt_irrefl, if_neg, if_pos] at hev <;>
          aesop

/-- The chunk fold concatenates the per-chunk traces in chunk order. -/
theorem processBatchesGo_trace (ta : TargetAdapter) (ttn kcol : String) :
    ∀ cs : List (List Row),
      (SyncJob.processBatchesGo ta ttn kcol cs).2 =
        (cs.map fun c => (SyncJob.processBatch ta ttn kcol c).2).flatten := by
  intro cs
  induction cs with
  | nil => rfl
  | cons c rest ih => simp [SyncJob.processBatchesGo, ih]

/-- The chunk fold sums the per-chunk counters. -/
theorem processBatchesGo_counts (ta : TargetAdapter) (ttn kcol : String) :
    ∀ cs : List (List Row),
      (SyncJob.processBatchesGo ta ttn kcol cs).1.processed =
          (cs.map fun c => (SyncJob.processBatch ta ttn kcol c).1.processed).sum ∧
        (SyncJob.processBatchesGo ta ttn kcol cs).1.inserted =
          (cs.map fun c => (SyncJob.processBatch ta ttn kcol c).1.inserted).sum ∧
        (SyncJob.processBatchesGo ta ttn kcol cs).1.updated =
          (cs.map fun c => (SyncJob.processBatch ta ttn kcol c).1.updated).sum := by
  intro cs
  induction cs with
  | nil => exact ⟨rfl, rfl, rfl⟩
  | cons c rest ih => simp [SyncJob.processBatchesGo, ih.1, ih.2.1, ih.2.2]

/-- `processBatches` reports `totalProcessed = inserted + updated`. -/
theorem processBatches_processed_eq (ta : TargetAdapter) (ttn kcol : String)
    (bs : Nat) (records : List Row) :
    (SyncJob.processBatches ta ttn kcol bs records).1.processed =
      (SyncJob.processBatches ta ttn kcol bs records).1.inserted +
        (SyncJob.processBatches ta ttn kcol bs records).1.updated := by
  unfold SyncJob.processBatches
  obtain ⟨h1, h2, h3⟩ := processBatchesGo_counts ta ttn kcol (SyncJob.chunkList bs records)
  rw [h1, h2, h3]
  induction SyncJob.chunkList bs records with
  | nil => rfl
  | cons c rest ih =>
    have hc := (processBatch_counts ta ttn kcol c).1
    simp only [List.map_cons, List.sum_cons, ih]
    omega

/-- `processBatches` never reports more processed rows than it was
given. -/
theorem processBatches_processed_le (ta : TargetAdapter) (ttn kcol : String)
    (bs : Nat) (records : List Row) :
    (SyncJob.processBatches ta ttn kcol bs records).1.processed ≤ records.length := by
  unfold SyncJob.processBatches
  rw [(processBatchesGo_counts ta ttn kcol (SyncJob.chunkList bs records)).1]
  have hsum : ((SyncJob.chunkList bs records).map fun c =>
      (SyncJob.processBatch ta ttn kcol c).1.processed).sum ≤
      ((SyncJob.chunkList bs records).map List.length).sum := by
    induction SyncJob.chunkList bs records with
    | nil => simp
    | cons c rest ih =>
      simp only [List.map_cons, List.sum_cons]
      have := processBatch_processed_le ta ttn kcol c
      omega
  exact le_trans hsum (chunkGo_sum_length_le bs records.length records)

/-- Every event of the full reconciliation trace belongs to the trace of
one of the chunks. -/
theorem processBatches_trace_mem (ta : TargetAdapter) (ttn kcol : String)
    (bs : Nat) (records : List Row) :
    ∀ ev ∈ (SyncJob.processBatches ta ttn kcol bs records).2,
      ∃ c ∈ SyncJob.chunkList bs records, ev ∈ (SyncJob.processBatch ta ttn kcol c).2 := by
  intro ev hev
  unfold SyncJob.processBatches at hev
  rw [processBatchesGo_trace] at hev
  simp only [List.mem_flatten, List.mem_map] at hev
  obtain ⟨l, ⟨c, hc, hl⟩, hevl⟩ := hev
  exact ⟨c, hc, hl ▸ hevl⟩

/-! ## Claim theorems -/

/-- **C3.** For every extracted row `R` with key value `K` whose
existence check succeeds, reconciliation routes `R` to `batchUpdate`
(the `toUpdate` partition) when `K` already exists in the target table
and to `batchInsert` (the `toInsert` partition) when it does not; no row
is in both partitions, and no row with an existing key is ever passed to
a `batchInsert` call (batch or fallback). -/
theorem C3_upsert_routing (ta : TargetAdapter) (ttn kcol : String) (batch : List Row)
    (r : Row) (v : Value) (b : Bool)
    (hmem : r ∈ batch) (hget : recGet r kcol = some v) (htruthy : v.truthy = true)
    (hex : ta.existsQ ttn kcol v = .ok b) :
    (b = true → r ∈ (SyncJob.partitionRecords ta ttn kcol batch).2.1 ∧
      r ∉ (SyncJob.partitionRecords ta ttn kcol batch).1) ∧
    (b = false → r ∈ (SyncJob.partitionRecords ta ttn kcol batch).1 ∧
      r ∉ (SyncJob.partitionRecords ta ttn kcol batch).2.1) ∧
    (b = true → ∀ rows, Event.evBatchInsert ttn rows ∈ (SyncJob.processBatch ta ttn kcol batch).2 →
      r ∉ rows) := by
  have hkv : keyVal kcol r = v := by simp [keyVal, hget]
  have hkt : keyTruthy kcol r = true := by simp [keyTruthy, hget, htruthy]
  cases b with
  | true =>
    have hupd : updEligible ta ttn kcol r = true := by
      simp [updEligible, hkt, hkv, hex]
    have hins : insEligible ta ttn kcol r = false := by
      simp [insEligible, hkv, hex]
    refine ⟨fun _ => ⟨?_, ?_⟩, fun hb => by simp at hb, fun _ rows hrows hrmem => ?_⟩
    · rw [partitionRecords_eq]
      exact List.mem_filter.mpr ⟨hmem, hupd⟩
    · rw [partitionRecords_eq]
      intro hc
      have := (List.mem_filter.mp hc).2
      rw [hins] at this
      exact Bool.false_ne_true this
    · rcases processBatch_trace_cases ta ttn kcol batch _ hrows with
        ⟨s, hs, hse⟩ | he | ⟨x, hx, hxe⟩ | he | ⟨x, hx, hxe⟩
      · exact absurd hse (by simp)
      · simp only [Event.evBatchInsert.injEq] at he
        rw [he.2] at hrmem
        have := (List.mem_filter.mp hrmem).2
        rw [hins] at this
        exact Bool.false_ne_true this
      · simp only [Event.evBatchInsert.injEq] at hxe
        rw [← hxe.2] at hrmem
        have hrx : r = x := List.mem_singleton.mp hrmem
        have := (List.mem_filter.mp (hrx ▸ hx)).2
        rw [hins] at this
        exact Bool.false_ne_true this
      · exact absurd he (by simp)
      · exact absurd hxe (by simp)
  | false =>
    have hupd : updEligible ta ttn kcol r = false := by
      simp [updEligible, hkv, hex]
    have hins : insEligible ta ttn kcol r = true := by
      simp [insEligible, hkt, hkv, hex]
    refine ⟨fun hb => by simp at hb, fun _ => ⟨?_, ?_⟩, fun hb => by simp at hb⟩
    · rw [partitionRecords_eq]
      exact List.mem_filter.mpr ⟨hmem, hins⟩
    · rw [partitionRecords_eq]
      intro hc
      have := (List.mem_filter.mp hc).2
      rw [hupd] at this
      exact Bool.false_ne_true this

/-- Concrete rows used by witnesses and counterexamples. -/
def rowA : Row := [("id", Value.vInt 1), ("updated_at", Value.vDate 5)]

def rowB : Row := [("id", Value.vInt 2), ("updated_at", Value.vDate 6)]

def rowC : Row := [("id", Value.vInt 3), ("updated_at", Value.vDate 7)]

/-- A target adapter whose table already holds exactly key `2` and whose
writes succeed. -/
def taKey2 : TargetAdapter :=
  { getSyncStatus := fun _ => .ok 0,
    existsQ := fun _ _ v => .ok (decide (v = Value.vInt 2)),
    batchInsert := fun _ _ => .ok (),
    batchUpdate := fun _ _ _ => .ok (),
    updateSyncStatus := fun _ _ => .ok () }

/-- Witness for C3 at a concrete input: with key `2` already present in
the target, the row with key `2` lands in `toUpdate` and not in
`toInsert`. -/
theorem C3_upsert_routing_witness :
    rowB ∈ (SyncJob.partitionRecords taKey2 "t" "id" [rowA, rowB]).2.1 ∧
      rowB ∉ (SyncJob.partitionRecords taKey2 "t" "id" [rowA, rowB]).1 :=
  (C3_upsert_routing taKey2 "t" "id" [rowA, rowB] rowB (Value.vInt 2) true
    (by decide) (by rfl) (by rfl) (by rfl)).1 rfl

/-- **C4.** For every chunk whose batch-apply call throws, every row of
the corresponding partition is subsequently applied by its own singleton
call (all rows are attempted), and the reported count equals the number
of individually successful rows — a failing row is excluded from the
count without stopping the rest. -/
theorem C4_fallback (ta : TargetAdapter) (ttn kcol : String) (batch : List Row) :
    (∀ e, ta.batchInsert ttn (batch.filter (insEligible ta ttn kcol)) = .error e →
      (SyncJob.processBatch ta ttn kcol batch).1.inserted =
          ((batch.filter (insEligible ta ttn kcol)).filter
            (fun r => exceptOk (ta.batchInsert ttn [r]))).length ∧
        ∀ r ∈ batch.filter (insEligible ta ttn kcol),
          Event.evBatchInsert ttn [r] ∈ (SyncJob.processBatch ta ttn kcol batch).2) ∧
    (∀ e, ta.batchUpdate ttn (batch.filter (updEligible ta ttn kcol)) kcol = .error e →
      (SyncJob.processBatch ta ttn kcol batch).1.updated =
          ((batch.filter (updEligible ta ttn kcol)).filter
            (fun r => exceptOk (ta.batchUpdate ttn [r] kcol))).length ∧
        ∀ r ∈ batch.filter (updEligible ta ttn kcol),
          Event.evBatchUpdate ttn [r] kcol ∈ (SyncJob.processBatch ta ttn kcol batch).2) := by
  constructor
  · intro e he
    by_cases hI : (batch.filter (insEligible ta ttn kcol)).length > 0
    · constructor
      · simp only [SyncJob.processBatch, partitionRecords_eq, insertOneByOne_eq]
        simp [hI, he, List.filter_filter]
      · intro r hr
        simp only [SyncJob.processBatch, partitionRecords_eq, insertOneByOne_eq]
        simp only [hI, he, if_pos, List.mem_append, List.mem_cons, List.mem_map]
        exact Or.inl (Or.inr (Or.inr ⟨r, hr, rfl⟩))
    · have hnil : batch.filter (insEligible ta ttn kcol) = [] :=
        List.eq_nil_of_length_eq_zero (by omega)
      constructor
      · simp only [SyncJob.processBatch, partitionRecords_eq]
        simp [hI, hnil]
      · intro r hr
        rw [hnil] at hr
        exact absurd hr (List.not_mem_nil r)
  · intro e he
    by_cases hU : (batch.filter (updEligible ta ttn kcol)).length > 0
    · constructor
      · simp only [SyncJob.processBatch, partitionRecords_eq, updateOneByOne_eq]
        simp [hU, he, List.filter_filter]
      · intro r hr
        simp only [SyncJob.processBatch, partitionRecords_eq, updateOneByOne_eq]
        simp only [hU, he, if_pos, List.mem_append, List.mem_cons, List.mem_map]
        exact Or.inr (Or.inr ⟨r, hr, rfl⟩)
    · have hnil : batch.filter (updEligible ta ttn kcol) = [] :=
        List.eq_nil_of_length_eq_zero (by omega)
      constructor
      · simp only [SyncJob.processBatch, partitionRecords_eq]
        simp [hU, hnil]
      · intro r hr
        rw [hnil] at hr
        exact absurd hr (List.not_mem_nil r)

/-- A target adapter in which nothing exists yet, whole-batch inserts of
more than one row fail, and the individual insert of `rowB` fails (the
one malformed row). -/
def taFallback : TargetAdapter :=
  { getSyncStatus := fun _ => .ok 0,
    existsQ := fun _ _ _ => .ok false,
    batchInsert := fun _ rows =>
      if rows = [rowB] then .error "bad row"
      else if rows.length = 1 then .ok () else .error "batch failed",
    batchUpdate := fun _ _ _ => .ok (),
    updateSyncStatus := fun _ _ => .ok () }

/-- Witness for C4 at a concrete input: the 3-row chunk's batch insert
fails, every row is retried individually, the malformed `rowB` is
excluded, and the reported count is `2` (= 3 − 1). -/
theorem C4_fallback_witness :
    taFallback.batchInsert "t" ([rowA, rowB, rowC].filter (insEligible taFallback "t" "id"))
        = .error "batch failed" ∧
      (SyncJob.processBatch taFallback "t" "id" [rowA, rowB, rowC]).1.inserted =
        (([rowA, rowB, rowC].filter (insEligible taFallback "t" "id")).filter
          (fun r => exceptOk (taFallback.batchInsert "t" [r]))).length ∧
      (SyncJob.processBatch taFallback "t" "id" [rowA, rowB, rowC]).1.inserted = 2 ∧
      Event.evBatchInsert "t" [rowB] ∈ (SyncJob.processBatch taFallback "t" "id" [rowA, rowB, rowC]).2 :=
  ⟨by rfl,
   ((C4_fallback taFallback "t" "id" [rowA, rowB, rowC]).1 "batch failed" (by rfl)).1,
   by rfl,
   ((C4_fallback taFallback "t" "id" [rowA, rowB, rowC]).1 "batch failed" (by rfl)).2
     rowB (by decide)⟩

/-- A truthy key value survives `getD`: the value the skipped guard let
through is the value handed to the existence check. -/
theorem keyVal_truthy_of_keyTruthy (kcol : String) (r : Row)
    (h : keyTruthy kcol r = true) : (keyVal kcol r).truthy = true := by
  unfold keyTruthy at h
  unfold keyVal
  rcases hg : recGet r kcol with _ | v
  · rw [hg] at h
    simp at h
  · rw [hg] at h
    simpa using h

/-- **C7.** Reconciliation reports `processed = inserted + updated ≤
number of extracted rows`; every existence check it performs carries a
truthy key value (so a row whose key column is missing or null triggers
no existence check), and such a row is routed to neither partition of
any chunk, hence counted as neither inserted nor updated.  The job does
not fail for it: `processBatches` is total and returns these counts. -/
theorem C7_skip_missing_key (ta : TargetAdapter) (ttn kcol : String)
    (bs : Nat) (records : List Row) :
    (SyncJob.processBatches ta ttn kcol bs records).1.processed =
        (SyncJob.processBatches ta ttn kcol bs records).1.inserted +
          (SyncJob.processBatches ta ttn kcol bs records).1.updated ∧
      (SyncJob.processBatches ta ttn kcol bs records).1.processed ≤ records.length ∧
      (∀ t k v, Event.evExists t k v ∈ (SyncJob.processBatches ta ttn kcol bs records).2 →
        v.truthy = true) ∧
      (∀ r, recGet r kcol = none ∨ recGet r kcol = some Value.vNull →
        ∀ c ∈ SyncJob.chunkList bs records,
          r ∉ (SyncJob.partitionRecords ta ttn kcol c).1 ∧
            r ∉ (SyncJob.partitionRecords ta ttn kcol c).2.1) := by
  refine ⟨processBatches_processed_eq ta ttn kcol bs records,
    processBatches_processed_le ta ttn kcol bs records, ?_, ?_⟩
  · intro t k v hv
    obtain ⟨c, _, hev⟩ := processBatches_trace_mem ta ttn kcol bs records _ hv
    rcases processBatch_trace_cases ta ttn kcol c _ hev with
      ⟨s, hs, hse⟩ | he | ⟨x, hx, hxe⟩ | he | ⟨x, hx, hxe⟩
    · have hkt : keyTruthy kcol s = true := (List.mem_filter.mp hs).2
      have : v = keyVal kcol s := by
        have := hse
        simp only [Event.evExists.injEq] at this
        exact this.2.2.symm
      rw [this]
      exact keyVal_truthy_of_keyTruthy kcol s hkt
    · exact absurd he (by simp)
    · exact absurd hxe (by simp)
    · exact absurd he (by simp)
    · exact absurd hxe (by simp)
  · intro r hr c _
    have hkt : keyTruthy kcol r = false := by
      rcases hr with hr | hr <;> simp [keyTruthy, hr, Value.truthy]
    have hins : insEligible ta ttn kcol r = false := by
      simp [insEligible, hkt]
    have hupd : updEligible ta ttn kcol r = false := by
      simp [updEligible, hkt]
    rw [partitionRecords_eq]
    constructor
    · intro hc
      have := (List.mem_filter.mp hc).2
      rw [hins] at this
      exact Bool.false_ne_true this
    · intro hc
      have := (List.mem_filter.mp hc).2
      rw [hupd] at this
      exact Bool.false_ne_true this

/-- A row whose key column is SQL NULL. -/
def rowNull : Row := [("id", Value.vNull), ("updated_at", Value.vDate 8)]

/-- Witness for C7 at a concrete input: the NULL-keyed row lands in
neither partition and the processed count stays within the input size. -/
theorem C7_skip_missing_key_witness :
    (SyncJob.processBatches taKey2 "t" "id" 10 [rowA, rowNull]).1.processed ≤
        ([rowA, rowNull] : List Row).length ∧
      rowNull ∉ (SyncJob.partitionRecords taKey2 "t" "id" [rowA, rowNull]).1 ∧
      rowNull ∉ (SyncJob.partitionRecords taKey2 "t" "id" [rowA, rowNull]).2.1 :=
  ⟨(C7_skip_missing_key taKey2 "t" "id" 10 [rowA, rowNull]).2.1,
   ((C7_skip_missing_key taKey2 "t" "id" 10 [rowA, rowNull]).2.2.2 rowNull
     (Or.inr (by rfl)) [rowA, rowNull] (by decide)).1,
   ((C7_skip_missing_key taKey2 "t" "id" 10 [rowA, rowNull]).2.2.2 rowNull
     (Or.inr (by rfl)) [rowA, rowNull] (by decide)).2⟩

/-- **C9.** The key-eligibility check is JavaScript truthiness, not a
null check: a row whose key-column value is `0`, `""` or `false` — a
present, non-null value — fails the `if (!keyValue)` guard exactly like
a missing or null key: it is routed to neither partition (so counted as
neither inserted nor updated) and no existence check is performed with
its key value. -/
theorem C9_truthiness_skip (ta : TargetAdapter) (ttn kcol : String)
    (batch : List Row) (r : Row) (_hmem : r ∈ batch)
    (hval : recGet r kcol = some (Value.vInt 0) ∨ recGet r kcol = some (Value.vStr "") ∨
      recGet r kcol = some (Value.vBool false)) :
    (recGet r kcol).isSome = true ∧ recGet r kcol ≠ some Value.vNull ∧
      keyTruthy kcol r = false ∧
      r ∉ (SyncJob.partitionRecords ta ttn kcol batch).1 ∧
      r ∉ (SyncJob.partitionRecords ta ttn kcol batch).2.1 ∧
      ∀ t k, Event.evExists t k (keyVal kcol r) ∉ (SyncJob.processBatch ta ttn kcol batch).2 := by
  have hkt : keyTruthy kcol r = false := by
    rcases hval with hr | hr | hr <;> simp [keyTruthy, hr, Value.truthy]
  have hkvf : (keyVal kcol r).truthy = false := by
    rcases hval with hr | hr | hr <;> simp [keyVal, hr, Value.truthy]
  have hins : insEligible ta ttn kcol r = false := by
    simp [insEligible, hkt]
  have hupd : updEligible ta ttn kcol r = false := by
    simp [updEligible, hkt]
  refine ⟨by rcases hval with hr | hr | hr <;> simp [hr],
    by rcases hval with hr | hr | hr <;> simp [hr],
    hkt, ?_, ?_, ?_⟩
  · rw [partitionRecords_eq]
    intro hc
    have := (List.mem_filter.mp hc).2
    rw [hins] at this
    exact Bool.false_ne_true this
  · rw [partitionRecords_eq]
    intro hc
    have := (List.mem_filter.mp hc).2
    rw [hupd] at this
    exact Bool.false_ne_true this
  · intro t k hev
    rcases processBatch_trace_cases ta ttn kcol batch _ hev with
      ⟨s, hs, hse⟩ | he | ⟨x, hx, hxe⟩ | he | ⟨x, hx, hxe⟩
    · have hkts : keyTruthy kcol s = true := (List.mem_filter.mp hs).2
      have hveq : keyVal kcol s = keyVal kcol r := by
        simp only [Event.evExists.injEq] at hse
        exact hse.2.2
      have := keyVal_truthy_of_keyTruthy kcol s hkts
      rw [hveq, hkvf] at this
      exact Bool.false_ne_true this
    · exact absurd he (by simp)
    · exact absurd hxe (by simp)
    · exact absurd he (by simp)
    · exact absurd hxe (by simp)

/-- A row whose key-column value is the number `0`: present and
non-null, yet falsy. -/
def rowZero : Row := [("id", Value.vInt 0), ("updated_at", Value.vDate 9)]

/-- Witness for C9 at a concrete input: the `0`-keyed row is present and
non-null yet routed to neither partition. -/
theorem C9_truthiness_skip_witness :
    (recGet rowZero "id").isSome = true ∧
      rowZero ∉ (SyncJob.partitionRecords taKey2 "t" "id" [rowZero, rowA]).1 ∧
      rowZero ∉ (SyncJob.partitionRecords taKey2 "t" "id" [rowZero, rowA]).2.1 :=
  ⟨(C9_truthiness_skip taKey2 "t" "id" [rowZero, rowA] rowZero (by decide)
      (Or.inl (by rfl))).1,
   (C9_truthiness_skip taKey2 "t" "id" [rowZero, rowA] rowZero (by decide)
      (Or.inl (by rfl))).2.2.2.1,
   (C9_truthiness_skip taKey2 "t" "id" [rowZero, rowA] rowZero (by decide)
      (Or.inl (by rfl))).2.2.2.2.1⟩

/-- When the whole-partition `batchInsert` call succeeds, the
`batchInsert` invocations of a chunk's trace are exactly that one call
(and none when the insert partition is empty). -/
theorem processBatch_filter_insert_events (ta : TargetAdapter) (ttn kcol : String)
    (batch : List Row)
    (hok : ta.batchInsert ttn (batch.filter (insEligible ta ttn kcol)) = .ok ()) :
    (SyncJob.processBatch ta ttn kcol batch).2.filter isBatchInsertEv =
      if (batch.filter (insEligible ta ttn kcol)).length > 0 then
        [Event.evBatchInsert ttn (batch.filter (insEligible ta ttn kcol))]
      else [] := by
  simp only [SyncJob.processBatch, partitionRecords_eq, updateOneByOne_eq]
  by_cases hI : (batch.filter (insEligible ta ttn kcol)).length > 0 <;>
    by_cases hU : (batch.filter (updEligible ta ttn kcol)).length > 0 <;>
      rcases hbu : ta.batchUpdate ttn (batch.filter (updEligible ta ttn kcol)) kcol with eU | uU <;>
        simp [hI, hU, hok, hbu, List.filter_append, List.filter_map, isBatchInsertEv,
          Function.comp]

/-- **C6 (amended).** The reconciler first chunks the full extracted row
list into groups of at most `batchSize`, then partitions each chunk and
issues its batch-apply calls per chunk; consequently a single
`batchInsert` call covering all insert-eligible rows is guaranteed when
the whole input fits in one chunk (at most `batchSize` rows in total). -/
theorem C6_chunk_then_partition (ta : TargetAdapter) (ttn kcol : String)
    (bs : Nat) (records : List Row) :
    (∀ c ∈ SyncJob.chunkList bs records, c.length ≤ bs) ∧
      (SyncJob.processBatches ta ttn kcol bs records).2 =
        ((SyncJob.chunkList bs records).map
          fun c => (SyncJob.processBatch ta ttn kcol c).2).flatten ∧
      (records ≠ [] → records.length ≤ bs →
        SyncJob.chunkList bs records = [records] ∧
          (ta.batchInsert ttn (records.filter (insEligible ta ttn kcol)) = .ok () →
            (records.filter (insEligible ta ttn kcol)).length > 0 →
            (SyncJob.processBatches ta ttn kcol bs records).2.filter isBatchInsertEv =
              [Event.evBatchInsert ttn (records.filter (insEligible ta ttn kcol))])) := by
  refine ⟨fun c hc => chunkGo_mem_length_le bs records.length records c hc,
    processBatchesGo_trace ta ttn kcol (SyncJob.chunkList bs records), ?_⟩
  intro hne hlen
  have hchunk := chunkList_singleton bs records hne hlen
  refine ⟨hchunk, fun hok hpos => ?_⟩
  unfold SyncJob.processBatches
  rw [hchunk]
  simp only [SyncJob.processBatchesGo, List.append_nil]
  rw [processBatch_filter_insert_events ta ttn kcol records hok, if_pos hpos]

/-- Counterexample to C6 as stated: with `batchSize = 2` and extracted
rows `[rowA, rowB, rowC]` of which exactly `rowA` and `rowC` (2 ≤
batchSize) are insert-eligible, the run issues **two** `batchInsert`
calls, not one — the code chunks `[rowA,rowB]`,`[rowC]` before
partitioning, so the insert-eligible rows are split across chunks. -/
theorem C6_counterexample :
    (([rowA, rowB, rowC] : List Row).filter (insEligible taKey2 "t" "id")).length = 2 ∧
      (2 : Nat) ≤ 2 ∧
      ((SyncJob.processBatches taKey2 "t" "id" 2 [rowA, rowB, rowC]).2.filter
        isBatchInsertEv).length = 2 := by
  refine ⟨by decide, by decide, by decide⟩

/-- Witness for the amended C6 at a concrete input: with `batchSize =
10` the same three rows form one chunk and the insert-eligible rows are
covered by a single `batchInsert` call. -/
theorem C6_chunk_then_partition_witness :
    SyncJob.chunkList 10 [rowA, rowB, rowC] = [[rowA, rowB, rowC]] ∧
      (SyncJob.processBatches taKey2 "t" "id" 10 [rowA, rowB, rowC]).2.filter isBatchInsertEv =
        [Event.evBatchInsert "t"
          (([rowA, rowB, rowC] : List Row).filter (insEligible taKey2 "t" "id"))] :=
  ⟨((C6_chunk_then_partition taKey2 "t" "id" 10 [rowA, rowB, rowC]).2.2
      (by decide) (by decide)).1,
   ((C6_chunk_then_partition taKey2 "t" "id" 10 [rowA, rowB, rowC]).2.2
      (by decide) (by decide)).2 (by rfl) (by decide)⟩

/-- **C1.** If extraction throws, `execute` returns `success: false`
carrying the error and the watermark write (`updateSyncStatus`) is never
invoked; conversely, whenever the trace contains a watermark write, it
is the last event, performed only after `processBatches` has reconciled
the full extracted row list.  (In the code the reconciliation step
catches all row- and batch-level errors internally — in the model
`processBatches` is total — so a "reconciliation throw" can only be an
adapter error surfacing through those same calls, and no watermark write
precedes complete reconciliation of all extracted rows.) -/
theorem C1_watermark_after_reconciliation (j : SyncJob) (now : Int) :
    (∀ w e,
      j.targetAdapter.getSyncStatus (j.tableName ++ "_to_" ++ j.targetTableName) = .ok w →
      j.sourceAdapter.getUpdatedRecords j.tableName j.updateColumn w = .error e →
      (j.execute now).1 = SyncJob.mkFailResult e ∧
        ∀ k t, Event.evUpdateSyncStatus k t ∉ (j.execute now).2) ∧
    (∀ k t, Event.evUpdateSyncStatus k t ∈ (j.execute now).2 →
      ∃ w rows,
        j.targetAdapter.getSyncStatus (j.tableName ++ "_to_" ++ j.targetTableName) = .ok w ∧
        j.sourceAdapter.getUpdatedRecords j.tableName j.updateColumn w = .ok rows ∧
        rows ≠ [] ∧
        (j.execute now).2 =
          [Event.evGetSyncStatus (j.tableName ++ "_to_" ++ j.targetTableName),
           Event.evGetUpdatedRecords j.tableName j.updateColumn w]
            ++ (SyncJob.processBatches j.targetAdapter j.targetTableName j.keyColumn
                j.batchSize rows).2
            ++ [Event.evUpdateSyncStatus (j.tableName ++ "_to_" ++ j.targetTableName) now]) := by
  constructor
  · intro w e hw he
    constructor
    · simp [SyncJob.execute, hw, he]
    · intro k t ht
      simp only [SyncJob.execute, hw, he] at ht
      simp at ht
  · intro k t ht
    rcases hg : j.targetAdapter.getSyncStatus (j.tableName ++ "_to_" ++ j.targetTableName)
      with eg | w
    · simp only [SyncJob.execute, hg] at ht
      simp at ht
    · rcases hu : j.sourceAdapter.getUpdatedRecords j.tableName j.updateColumn w with eu | rows
      · simp only [SyncJob.execute, hg, hu] at ht
        simp at ht
      · by_cases hz : rows.length = 0
        · simp only [SyncJob.execute, hg, hu, if_pos hz] at ht
          simp at ht
        · have hz' : rows ≠ [] := fun hnil => hz (by simp [hnil])
          refine ⟨w, rows, rfl, hu, hz', ?_⟩
          rcases hup : j.targetAdapter.updateSyncStatus
              (j.tableName ++ "_to_" ++ j.targetTableName) now with eup | u
          · simp [SyncJob.execute, hg, hu, hz', hup]
          · simp [SyncJob.execute, hg, hu, hz', hup]

/-- A source adapter whose extraction always throws. -/
def saBroken : SourceAdapter :=
  { getUpdatedRecords := fun _ _ _ => .error "connection lost" }

/-- Witness for C1 at a concrete input: a job whose extraction throws
returns the failure result and its trace holds no watermark write. -/
theorem C1_watermark_after_reconciliation_witness :
    (SyncJob.execute ⟨saBroken, taKey2, "s", "t", "updated_at", "id", 10⟩ 99).1 =
        SyncJob.mkFailResult "connection lost" ∧
      Event.evUpdateSyncStatus "s_to_t" 99 ∉
        (SyncJob.execute ⟨saBroken, taKey2, "s", "t", "updated_at", "id", 10⟩ 99).2 :=
  ⟨((C1_watermark_after_reconciliation ⟨saBroken, taKey2, "s", "t", "updated_at", "id", 10⟩ 99).1
      0 "connection lost" (by rfl) (by rfl)).1,
   ((C1_watermark_after_reconciliation ⟨saBroken, taKey2, "s", "t", "updated_at", "id", 10⟩ 99).1
      0 "connection lost" (by rfl) (by rfl)).2 "s_to_t" 99⟩

/-- **C8.** `execute` is total — every adapter error is caught inside it
and converted into a returned result object — and each fallible step's
error surfaces as exactly `{success: false, error: <message>,
recordsProcessed: 0, message: '同步失敗'}`: callers need no `try/catch`
of their own. -/
theorem C8_execute_never_throws (j : SyncJob) (now : Int) :
    ((j.execute now).1.success = false →
        (j.execute now).1.recordsProcessed = 0 ∧
          ((j.execute now).1.error).isSome = true ∧
          (j.execute now).1.message = "同步失敗") ∧
      (∀ e, j.targetAdapter.getSyncStatus (j.tableName ++ "_to_" ++ j.targetTableName) = .error e →
        (j.execute now).1 = SyncJob.mkFailResult e) ∧
      (∀ w e,
        j.targetAdapter.getSyncStatus (j.tableName ++ "_to_" ++ j.targetTableName) = .ok w →
        j.sourceAdapter.getUpdatedRecords j.tableName j.updateColumn w = .error e →
        (j.execute now).1 = SyncJob.mkFailResult e) ∧
      (∀ w rows e,
        j.targetAdapter.getSyncStatus (j.tableName ++ "_to_" ++ j.targetTableName) = .ok w →
        j.sourceAdapter.getUpdatedRecords j.tableName j.updateColumn w = .ok rows →
        rows.length ≠ 0 →
        j.targetAdapter.updateSyncStatus (j.tableName ++ "_to_" ++ j.targetTableName) now =
          .error e →
        (j.execute now).1 = SyncJob.mkFailResult e) := by
  refine ⟨?_, ?_, ?_, ?_⟩
  · intro hf
    rcases hg : j.targetAdapter.getSyncStatus (j.tableName ++ "_to_" ++ j.targetTableName)
      with eg | w
    · simp only [SyncJob.execute, hg] at hf ⊢
      exact ⟨rfl, rfl, rfl⟩
    · rcases hu : j.sourceAdapter.getUpdatedRecords j.tableName j.updateColumn w with eu | rows
      · simp only [SyncJob.execute, hg, hu] at hf ⊢
        exact ⟨rfl, rfl, rfl⟩
      · by_cases hz : rows.length = 0
        · simp only [SyncJob.execute, hg, hu, if_pos hz] at hf
          exact absurd hf (by simp)
        · rcases hup : j.targetAdapter.updateSyncStatus
              (j.tableName ++ "_to_" ++ j.targetTableName) now with eup | u
          · simp only [SyncJob.execute, hg, hu, if_neg hz, hup] at hf ⊢
            exact ⟨rfl, rfl, rfl⟩
          · simp only [SyncJob.execute, hg, hu, if_neg hz, hup] at hf
            exact absurd hf (by simp)
  · intro e hg
    simp [SyncJob.execute, hg]
  · intro w e hg hu
    simp [SyncJob.execute, hg, hu]
  · intro w rows e hg hu hz hup
    have hz' : rows ≠ [] := fun hnil => hz (by simp [hnil])
    simp [SyncJob.execute, hg, hu, hup, hz']

/-- A target adapter whose watermark write always throws. -/
def taWriteFails : TargetAdapter :=
  { getSyncStatus := fun _ => .ok 0,
    existsQ := fun _ _ _ => .ok false,
    batchInsert := fun _ _ => .ok (),
    batchUpdate := fun _ _ _ => .ok (),
    updateSyncStatus := fun _ _ => .error "write refused" }

/-- Witness for C8 at a concrete input: a failed watermark write comes
back as the `{success: false, …}` result object, not an exception. -/
theorem C8_execute_never_throws_witness :
    (SyncJob.execute ⟨mkSourceAdapter [rowA], taWriteFails, "s", "t", "updated_at", "id", 10⟩
        99).1 = SyncJob.mkFailResult "write refused" ∧
      (SyncJob.execute ⟨mkSourceAdapter [rowA], taWriteFails, "s", "t", "updated_at", "id", 10⟩
        99).1.recordsProcessed = 0 :=
  ⟨(C8_execute_never_throws
      ⟨mkSourceAdapter [rowA], taWriteFails, "s", "t", "updated_at", "id", 10⟩ 99).2.2.2
      0 [rowA] "write refused" (by rfl) (by rfl) (by decide) (by rfl),
   ((C8_execute_never_throws
      ⟨mkSourceAdapter [rowA], taWriteFails, "s", "t", "updated_at", "id", 10⟩ 99).1
      (by rfl)).1⟩

/-- A run over the pure store whose extraction window is empty takes the
zero-rows path: the no-op result, and a trace of only the two reads. -/
theorem execute_noop (src : List Row) (wm : WmStore)
    (exQ : String → String → Value → Except String Bool)
    (bi : String → List Row → Except String Unit)
    (bu : String → List Row → String → Except String Unit)
    (tbl ttbl ucol kcol : String) (bs : Nat) (now : Int)
    (h : rowsSince src ucol (wmLookup wm (tbl ++ "_to_" ++ ttbl)) = []) :
    SyncJob.execute
        ⟨mkSourceAdapter src, mkTargetAdapter wm exQ bi bu, tbl, ttbl, ucol, kcol, bs⟩ now =
      ({ success := true, recordsProcessed := 0, recordsInserted := none,
         recordsUpdated := none, error := none, message := "沒有新記錄" },
       [Event.evGetSyncStatus (tbl ++ "_to_" ++ ttbl),
        Event.evGetUpdatedRecords tbl ucol (wmLookup wm (tbl ++ "_to_" ++ ttbl))]) := by
  simp [SyncJob.execute, mkSourceAdapter, mkTargetAdapter, h]

/-- **C2.** A job whose extraction returns zero rows returns
`{success: true, recordsProcessed: 0}` and does not write the watermark;
hence a second run over the resulting store — unchanged source, no
source-side changes — again reports `recordsProcessed = 0`, and the
stored watermark for the pair key is the same after the second run as it
was before the first. -/
theorem C2_noop_idempotent (src : List Row) (wm : WmStore)
    (exQ : String → String → Value → Except String Bool)
    (bi : String → List Row → Except String Unit)
    (bu : String → List Row → String → Except String Unit)
    (tbl ttbl ucol kcol : String) (bs : Nat) (now1 now2 : Int)
    (h : rowsSince src ucol (wmLookup wm (tbl ++ "_to_" ++ ttbl)) = []) :
    (∀ (j : SyncJob) (now w : Int),
        j.targetAdapter.getSyncStatus (j.tableName ++ "_to_" ++ j.targetTableName) = .ok w →
        j.sourceAdapter.getUpdatedRecords j.tableName j.updateColumn w = .ok [] →
        (j.execute now).1 =
            { success := true, recordsProcessed := 0, recordsInserted := none,
              recordsUpdated := none, error := none, message := "沒有新記錄" } ∧
          ∀ k t, Event.evUpdateSyncStatus k t ∉ (j.execute now).2) ∧
    (SyncJob.execute
        ⟨mkSourceAdapter src, mkTargetAdapter wm exQ bi bu, tbl, ttbl, ucol, kcol, bs⟩ now1).1 =
        { success := true, recordsProcessed := 0, recordsInserted := none,
          recordsUpdated := none, error := none, message := "沒有新記錄" } ∧
      (∀ k t, Event.evUpdateSyncStatus k t ∉
        (SyncJob.execute
          ⟨mkSourceAdapter src, mkTargetAdapter wm exQ bi bu, tbl, ttbl, ucol, kcol, bs⟩ now1).2) ∧
      applyEvents wm
          (SyncJob.execute
            ⟨mkSourceAdapter src, mkTargetAdapter wm exQ bi bu, tbl, ttbl, ucol, kcol, bs⟩ now1).2
        = wm ∧
      (SyncJob.execute
          ⟨mkSourceAdapter src,
           mkTargetAdapter
             (applyEvents wm
               (SyncJob.execute
                 ⟨mkSourceAdapter src, mkTargetAdapter wm exQ bi bu,
                  tbl, ttbl, ucol, kcol, bs⟩ now1).2)
             exQ bi bu,
           tbl, ttbl, ucol, kcol, bs⟩ now2).1.recordsProcessed = 0 ∧
      wmLookup
          (applyEvents
            (applyEvents wm
              (SyncJob.execute
                ⟨mkSourceAdapter src, mkTargetAdapter wm exQ bi bu,
                 tbl, ttbl, ucol, kcol, bs⟩ now1).2)
            (SyncJob.execute
              ⟨mkSourceAdapter src,
               mkTargetAdapter
                 (applyEvents wm
                   (SyncJob.execute
                     ⟨mkSourceAdapter src, mkTargetAdapter wm exQ bi bu,
                      tbl, ttbl, ucol, kcol, bs⟩ now1).2)
                 exQ bi bu,
               tbl, ttbl, ucol, kcol, bs⟩ now2).2)
          (tbl ++ "_to_" ++ ttbl)
        = wmLookup wm (tbl ++ "_to_" ++ ttbl) := by
  have e1 := execute_noop src wm exQ bi bu tbl ttbl ucol kcol bs now1 h
  have e3 : applyEvents wm
      (SyncJob.execute
        ⟨mkSourceAdapter src, mkTargetAdapter wm exQ bi bu, tbl, ttbl, ucol, kcol, bs⟩ now1).2
      = wm := by
    rw [e1]
    simp [applyEvents]
  have e2 := execute_noop src wm exQ bi bu tbl ttbl ucol kcol bs now2 h
  refine ⟨?_, by rw [e1], ?_, e3, ?_, ?_⟩
  · intro j now w hg hu
    constructor
    · simp [SyncJob.execute, hg, hu]
    · intro k t hkt
      simp only [SyncJob.execute, hg, hu] at hkt
      simp at hkt
  · intro k t hkt
    rw [e1] at hkt
    simp at hkt
  · rw [e3, e2]
  · rw [e3, e2]
    simp [applyEvents]

/-- The watermark store of the C2 witness: the pair `s → t` was last
synced at instant `10`, past every update in the witness source. -/
def wmW : WmStore := [("s_to_t", 10)]

/-- The trivial reconciliation capabilities used by the C2 witness. -/
def exQW : String → String → Value → Except String Bool := fun _ _ _ => .ok false

/-- Trivially succeeding batch insert used by the C2 witness. -/
def biW : String → List Row → Except String Unit := fun _ _ => .ok ()

/-- Trivially succeeding batch update used by the C2 witness. -/
def buW : String → List Row → String → Except String Unit := fun _ _ _ => .ok ()

/-- Witness for C2 at a concrete input: a source row updated at instant
5 with the watermark at 10 extracts nothing; both runs report zero and
the stored watermark value is untouched. -/
theorem C2_noop_idempotent_witness :
    (SyncJob.execute
        ⟨mkSourceAdapter [rowA], mkTargetAdapter wmW exQW biW buW,
         "s", "t", "updated_at", "id", 10⟩ 20).1 =
        { success := true, recordsProcessed := 0, recordsInserted := none,
          recordsUpdated := none, error := none, message := "沒有新記錄" } ∧
      wmLookup
          (applyEvents
            (applyEvents wmW
              (SyncJob.execute
                ⟨mkSourceAdapter [rowA], mkTargetAdapter wmW exQW biW buW,
                 "s", "t", "updated_at", "id", 10⟩ 20).2)
            (SyncJob.execute
              ⟨mkSourceAdapter [rowA],
               mkTargetAdapter
                 (applyEvents wmW
                   (SyncJob.execute
                     ⟨mkSourceAdapter [rowA], mkTargetAdapter wmW exQW biW buW,
                      "s", "t", "updated_at", "id", 10⟩ 20).2)
                 exQW biW buW,
               "s", "t", "updated_at", "id", 10⟩ 30).2)
          ("s" ++ "_to_" ++ "t")
        = wmLookup wmW ("s" ++ "_to_" ++ "t") :=
  ⟨(C2_noop_idempotent [rowA] wmW exQW biW buW "s" "t" "updated_at" "id" 10 20 30
      (by rfl)).2.1,
   (C2_noop_idempotent [rowA] wmW exQW biW buW "s" "t" "updated_at" "id" 10 20 30
      (by rfl)).2.2.2.2.2⟩

/-- **C10.** The concrete adapters' `getSyncStatus` swallows a thrown
query error and returns the epoch instant (`new Date(0)`); a job run
after such a read failure therefore does not fail (with healthy writes
it succeeds) and extracts from the epoch — every source row since
instant 0. -/
theorem C10_swallowed_read_failure (e : String) (src : List Row)
    (exQ : String → String → Value → Except String Bool)
    (bi : String → List Row → Except String Unit)
    (bu : String → List Row → String → Except String Unit)
    (tbl ttbl ucol kcol : String) (bs : Nat) (now : Int) :
    MariaDBAdapter.getSyncStatus (.error e) = 0 ∧
      MSSQLAdapter.getSyncStatus (.error e) = 0 ∧
      (SyncJob.execute
          ⟨mkSourceAdapter src,
           { getSyncStatus := fun _ => .ok (MariaDBAdapter.getSyncStatus (.error e)),
             existsQ := exQ, batchInsert := bi, batchUpdate := bu,
             updateSyncStatus := fun _ _ => .ok () },
           tbl, ttbl, ucol, kcol, bs⟩ now).1.success = true ∧
      Event.evGetUpdatedRecords tbl ucol 0 ∈
        (SyncJob.execute
          ⟨mkSourceAdapter src,
           { getSyncStatus := fun _ => .ok (MariaDBAdapter.getSyncStatus (.error e)),
             existsQ := exQ, batchInsert := bi, batchUpdate := bu,
             updateSyncStatus := fun _ _ => .ok () },
           tbl, ttbl, ucol, kcol, bs⟩ now).2 := by
  refine ⟨rfl, rfl, ?_, ?_⟩
  · by_cases hz : rowsSince src ucol 0 = [] <;>
      simp [SyncJob.execute, mkSourceAdapter, MariaDBAdapter.getSyncStatus, hz]
  · by_cases hz : rowsSince src ucol 0 = [] <;>
      simp [SyncJob.execute, mkSourceAdapter, MariaDBAdapter.getSyncStatus, hz]

/-- **C5.** A tick with two configured directed pairs: an error thrown
while executing one pair's job is caught at the scheduler boundary and
recorded as exactly one failed table, the other pair still runs in the
same tick, and the aggregate reports both outcomes — `totalTables = 2`,
one success (with its record count) and one failure — in either order. -/
theorem C5_pair_isolation (e : String) (r : SyncResult) (h : r.success = true) :
    DatabaseSyncer.runSync true true true (.error e) (.ok r) =
        ⟨2, 1, 1, r.recordsProcessed⟩ ∧
      DatabaseSyncer.runSync true true true (.ok r) (.error e) =
        ⟨2, 1, 1, r.recordsProcessed⟩ := by
  unfold DatabaseSyncer.runSync DatabaseSyncer.syncTablePair DatabaseSyncer.mergeResults
  simp [h]

/-- Witness for C5 at a concrete input: one throwing pair and one
successful pair with 4 records yield the aggregate
`{totalTables: 2, successTables: 1, failedTables: 1, totalRecords: 4}`. -/
theorem C5_pair_isolation_witness :
    DatabaseSyncer.runSync true true true (.error "boom")
        (.ok { success := true, recordsProcessed := 4, recordsInserted := some 3,
               recordsUpdated := some 1, error := none, message := "同步成功" }) =
      ⟨2, 1, 1, 4⟩ :=
  (C5_pair_isolation "boom"
    { success := true, recordsProcessed := 4, recordsInserted := some 3,
      recordsUpdated := some 1, error := none, message := "同步成功" } rfl).1
